import Mathlib

/-!
Shallow embedding of the analytics pipeline of `src/main.py` (a Dash CSV
upload / LTV dashboard).  The embedded functions are:

* `clean_and_merge_data` (main.py lines 44-59): concatenate uploaded tables,
  require the three source columns `PHONE NO` / `DRIVER PRICE` / `JOB DATE`
  (a missing column raises a `KeyError` at line 53, embedded as
  `Except.error`), rename them to `phone` / `price` / `job_date`, drop rows
  whose phone is null or the empty string, and parse `job_date` with the
  day-first format `%d/%m/%y %H:%M:%S`, unparseable values becoming null
  (`errors='coerce'`).

* `monthly_breakdown` (main.py lines 62-127): month grouping with
  first-visit attribution, per-month cohort records, and the LTV report.
  Machine floats are embedded as `ℚ` (pandas sums/divisions are exact on
  the small rationals of interest), pandas timestamps as a `Date` record,
  and null-able columns as `Option`.

* `update_data` (main.py lines 135-152): the upload callback, which appends
  the new run's monthly records to a previously stored report and replaces
  every LTV field.

Pandas / CPython behaviours that the claims depend on are embedded exactly:

* `Series.unique` keeps first-appearance order and includes `NaT`
  (`uniqueFA`).
* CPython's `sorted` compares with `<` only; `Period < NaT` and
  `NaT < Period` are both `False`, so `NaT` entries are incomparable and
  `sorted` degenerates to a stable insertion that never moves an element
  across one it does not compare smaller than (`pySort`; on `NaT`-free
  input this is exactly ascending sorting, which is all the general
  theorems about order use; the concrete counterexamples with `NaT` were
  traced against CPython's run-detection in `list.sort`).
* `month == NaT` is always `False`, so the `NaT` group selects no rows.
* `pd.merge(df, first_visits, on='phone')` (line 68) rebinds `df`: it keeps
  the left rows in order whose key occurs in `first_visits`, i.e. it drops
  rows whose phone is null (null keys never join); everything downstream of
  line 68, including the LTV block, works on this merged frame
  (`mergedRows`).
* `groupby('phone')` ignores null keys; `shift(-1)` is per-group; `.mean()`
  skips nulls; Python's `round(x, 2)` rounds half to even
  (`roundHalfEven`).
-/

/-- A calendar date (the `.dt.date` of a parsed timestamp; the time of day
is discarded by `clean_and_merge_data`). -/
structure Date where
  year : ℕ
  month : ℕ
  day : ℕ
deriving DecidableEq, Repr

/-- The calendar month of a date, as an absolute month count
(`to_period('M')`); comparing these is the chronological comparison of
`pd.Period` values. -/
def Date.monthIdx (d : Date) : ℕ := d.year * 12 + (d.month - 1)

/-- Days since 1970-01-01 (Howard Hinnant's `days_from_civil`); differences
of these are what `(next_visit - job_date).dt.days` yields for
date-valued timestamps. -/
def Date.toDayNumber (dt : Date) : ℤ :=
  let y : ℤ := if dt.month ≤ 2 then (dt.year : ℤ) - 1 else (dt.year : ℤ)
  let m : ℤ := (dt.month : ℤ)
  let era : ℤ := (if 0 ≤ y then y else y - 399) / 400
  let yoe : ℤ := y - era * 400
  let doy : ℤ := (153 * (if 2 < m then m - 3 else m + 9) + 2) / 5 + (dt.day : ℤ) - 1
  let doe : ℤ := yoe * 365 + yoe / 4 - yoe / 100 + doy
  era * 146097 + doe - 719468

/-- A raw CSV cell: missing (`NaN`), a string, or a number. -/
inductive Cell where
  | null : Cell
  | str : String → Cell
  | num : ℚ → Cell
deriving DecidableEq, Repr

/-- One uploaded CSV payload after `pd.read_csv`: a header and rows given as
association lists from column name to cell (a column absent from a row's
table reads as `NaN`, which is what `pd.concat` fills in). -/
structure RawTable where
  cols : List String
  rows : List (List (String × Cell))
deriving DecidableEq, Repr

/-- Read one cell of a raw row; a column the row does not carry is `NaN`. -/
def lookupCell (row : List (String × Cell)) (c : String) : Cell :=
  match row.lookup c with
  | some v => v
  | none => Cell.null

/-- Numeric value of a digit character. -/
def digitVal (c : Char) : ℕ := c.toNat - 48

/-- Read one or two leading digits (what `strptime`-style `%d`, `%m`, `%y`,
`%H`, `%M`, `%S` accept). -/
def parse1or2 : List Char → Option (ℕ × List Char)
  | [] => none
  | c :: rest =>
    if c.isDigit then
      match rest with
      | c2 :: rest2 =>
        if c2.isDigit then some (digitVal c * 10 + digitVal c2, rest2)
        else some (digitVal c, rest)
      | [] => some (digitVal c, [])
    else none

/-- Read exactly two digits (`strptime`'s `%y`, whose regex is literally
two digit classes, so a one-digit year does not match). -/
def parse2exact : List Char → Option (ℕ × List Char)
  | c1 :: c2 :: rest =>
    if c1.isDigit && c2.isDigit then some (digitVal c1 * 10 + digitVal c2, rest)
    else none
  | _ => none

/-- Require a literal separator character. -/
def expectChar (ch : Char) : List Char → Option (List Char)
  | [] => none
  | c :: rest => if c = ch then some rest else none

/-- A whitespace character of the regex class matched by a blank in a
`strptime` format. -/
def pyIsSpace (c : Char) : Bool :=
  c = ' ' || c = '\t' || c = '\n' || c = '\r' || c = '\x0b' || c = '\x0c'

/-- Whitespace inside a `strptime` format is compiled to the one-or-more
whitespace pattern, so the blank of the format consumes a nonempty greedy
run of whitespace characters. -/
def expectSpaces : List Char → Option (List Char)
  | c :: rest => if pyIsSpace c then some (rest.dropWhile pyIsSpace) else none
  | [] => none

/-- Gregorian leap-year test. -/
def isLeapYear (y : ℕ) : Bool := y % 4 == 0 && (y % 100 != 0 || y % 400 == 0)

/-- Number of days of a month. -/
def daysInMonth (y m : ℕ) : ℕ :=
  if m = 2 then (if isLeapYear y then 29 else 28)
  else if m = 4 ∨ m = 6 ∨ m = 9 ∨ m = 11 then 30 else 31

/-- Parse a `job_date` string with the fixed day-first format
`%d/%m/%y %H:%M:%S` (main.py line 57), following the `strptime` regex that
pandas compiles for this format: `%d`, `%m`, `%H`, `%M`, `%S` take one or
two digits, `%y` takes exactly two digits (mapped to 2000-2068 /
1969-1999), the blank matches a nonempty run of whitespace, the whole
string must be consumed, and calendar-invalid field values are rejected
(the regex alternations for the numeric fields are value-bounded, and for
every out-of-range two-digit value either the one-digit fallback leaves a
digit facing a separator — failing the match — or the later date/time
construction raises; both coerce to null, which is what the trailing
validation reproduces).  `none` is pandas `NaT` (`errors='coerce'`). -/
def parseJobDate (s : String) : Option Date :=
  (parse1or2 s.data).bind fun pd =>
  (expectChar '/' pd.2).bind fun r2 =>
  (parse1or2 r2).bind fun pm =>
  (expectChar '/' pm.2).bind fun r4 =>
  (parse2exact r4).bind fun py =>
  (expectSpaces py.2).bind fun r6 =>
  (parse1or2 r6).bind fun ph =>
  (expectChar ':' ph.2).bind fun r8 =>
  (parse1or2 r8).bind fun pmin =>
  (expectChar ':' pmin.2).bind fun r10 =>
  (parse1or2 r10).bind fun ps =>
  let year := if py.1 ≤ 68 then 2000 + py.1 else 1900 + py.1
  if 1 ≤ pm.1 ∧ pm.1 ≤ 12 ∧ 1 ≤ pd.1 ∧ pd.1 ≤ daysInMonth year pm.1
      ∧ ph.1 ≤ 23 ∧ pmin.1 ≤ 59 ∧ ps.1 ≤ 59 ∧ ps.2 = [] then
    some ⟨year, pm.1, pd.1⟩
  else none

/-- A row of `df_needed` after the select/rename of main.py lines 53-54:
the three retained columns under their new names. -/
structure RenamedRow where
  phone : Cell
  price : Cell
  job_date : Cell
deriving DecidableEq, Repr

/-- A cleaned row (the rows of `df_cleaned`): phone kept as the raw cell
value, price as a nullable number, job_date as a nullable date. -/
structure Row where
  phone : Cell
  price : Option ℚ
  job_date : Option Date
deriving DecidableEq, Repr

/-- Select and rename the three required columns (main.py lines 53-54). -/
def renameRow (row : List (String × Cell)) : RenamedRow :=
  { phone := lookupCell row "PHONE NO"
    price := lookupCell row "DRIVER PRICE"
    job_date := lookupCell row "JOB DATE" }

/-- The row filter of main.py line 55:
`df_needed["phone"].notna() & (df_needed["phone"] != "")`. -/
def keepRow (r : RenamedRow) : Bool :=
  decide (r.phone ≠ Cell.null) && decide (r.phone ≠ Cell.str "")

/-- The date (and price) normalisation of main.py line 57: parse string
dates with the fixed format, coercing failures (and non-string cells) to
null; a numeric price passes through, anything else is null. -/
def parseRowDate (r : RenamedRow) : Row :=
  { phone := r.phone
    price := match r.price with
             | Cell.num q => some q
             | _ => none
    job_date := match r.job_date with
                | Cell.str s => parseJobDate s
                | _ => none }

/-- `clean_and_merge_data` (main.py lines 44-59): concatenate the uploaded
tables row-wise, fail for the whole event if one of the three source
columns is absent from the concatenated frame (the `KeyError` of line 53),
otherwise rename, filter empty/null phones, and parse dates. -/
def clean_and_merge_data (tables : List RawTable) : Except String (List Row) :=
  let cols := tables.flatMap (fun t => t.cols)
  if "PHONE NO" ∈ cols ∧ "DRIVER PRICE" ∈ cols ∧ "JOB DATE" ∈ cols then
    Except.ok ((((tables.flatMap (fun t => t.rows)).map renameRow).filter
      keepRow).map parseRowDate)
  else
    Except.error "KeyError: missing required column"

/-- `Series.nunique`: number of distinct non-null values. -/
def nunique (cells : List Cell) : ℕ :=
  ((cells.filter (fun c => decide (c ≠ Cell.null))).toFinset).card

/-- Sum of a price column, nulls skipped (`Series.sum`). -/
def priceSum (rows : List Row) : ℚ :=
  (rows.map (fun r => r.price.getD 0)).sum

/-- The `month` column (main.py line 64): period of the row's date, `none`
being `NaT`. -/
def rowMonth (r : Row) : Option ℕ := r.job_date.map Date.monthIdx

/-- Pandas `==` on period values: any comparison against `NaT` is false. -/
def monthEq (a b : Option ℕ) : Bool :=
  match a, b with
  | some x, some y => decide (x = y)
  | _, _ => false

/-- Pandas `<` on period values: any comparison against `NaT` is false. -/
def monthLt (a b : Option ℕ) : Bool :=
  match a, b with
  | some x, some y => decide (x < y)
  | _, _ => false

/-- Worker for `uniqueFA`, carrying the values already seen. -/
def uniqueFAAux {α : Type} [DecidableEq α] : List α → List α → List α
  | _, [] => []
  | seen, a :: l =>
    if a ∈ seen then uniqueFAAux seen l else a :: uniqueFAAux (a :: seen) l

/-- `Series.unique`: distinct values in first-appearance order (nulls
included). -/
def uniqueFA {α : Type} [DecidableEq α] (l : List α) : List α :=
  uniqueFAAux [] l

/-- One step of CPython's stable sort: insert `a` into the already-built
suffix, skipping exactly the elements that compare `<` than `a`. -/
def pyInsert (a : Option ℕ) : List (Option ℕ) → List (Option ℕ)
  | [] => [a]
  | b :: l => if monthLt b a then b :: pyInsert a l else a :: b :: l

/-- CPython's `sorted` on period-or-`NaT` values, comparing with `monthLt`
only.  On `NaT`-free input this is exactly ascending sorting; with `NaT`
present the incomparable entries block movement, as in CPython. -/
def pySort : List (Option ℕ) → List (Option ℕ)
  | [] => []
  | a :: l => pyInsert a (pySort l)

/-- Python's `round` to two decimals: round half to even (banker's
rounding) at the second decimal place. -/
def roundHalfEven (q : ℚ) : ℤ :=
  if q - ⌊q⌋ < 1/2 then ⌊q⌋
  else if 1/2 < q - ⌊q⌋ then ⌊q⌋ + 1
  else if ⌊q⌋ % 2 = 0 then ⌊q⌋ else ⌊q⌋ + 1

/-- `round(x, 2)`. -/
def pyRound2 (q : ℚ) : ℚ := ((roundHalfEven (q * 100) : ℤ) : ℚ) / 100

/-- The frame after `pd.merge(df, first_visits, on='phone')` (main.py line
68): the inner join on `phone` keeps the rows, in order, whose phone also
occurs as a `groupby('phone')` key, i.e. exactly the rows with a non-null
phone (on cleaned data this keeps every row).  Everything from line 68 on,
including the whole LTV block, runs on this frame. -/
def mergedRows (df : List Row) : List Row :=
  df.filter (fun r => decide (r.phone ≠ Cell.null))

/-- First visit date of a customer (main.py lines 66-67):
`groupby('phone')['job_date'].min()`, nulls skipped. -/
def firstVisitDate (df : List Row) (p : Cell) : Option Date :=
  ((df.filter (fun r => decide (r.phone = p))).filterMap
    (fun r => r.job_date)).foldl
    (fun acc d =>
      match acc with
      | none => some d
      | some m => if d.toDayNumber < m.toDayNumber then some d else some m)
    none

/-- The per-row `first_visit_month` column (main.py line 69). -/
def firstVisitMonth (df : List Row) (p : Cell) : Option ℕ :=
  (firstVisitDate df p).map Date.monthIdx

/-- One record of the monthly breakdown (main.py lines 85-95); the month
label is `none` for the `str(NaT)` label. -/
structure MonthRecord where
  month : Option ℕ
  total_customers : ℕ
  new_customers : ℕ
  returning_customers : ℕ
  new_percentage : ℚ
  returning_percentage : ℚ
  total_revenue : ℚ
  new_customer_revenue : ℚ
  returning_customer_revenue : ℚ
deriving DecidableEq, Repr

/-- The body of the month loop (main.py lines 72-95) for one month value
`m`, computed over the merged frame `df`. -/
def mkMonthRecord (df : List Row) (m : Option ℕ) : MonthRecord :=
  let md := df.filter (fun r => monthEq (rowMonth r) m)
  let newRows := md.filter (fun r => monthEq (rowMonth r) (firstVisitMonth df r.phone))
  let total := nunique (md.map (fun r => r.phone))
  let newc := nunique (newRows.map (fun r => r.phone))
  let rev := priceSum md
  let nrev := priceSum newRows
  { month := m
    total_customers := total
    new_customers := newc
    returning_customers := total - newc
    new_percentage :=
      if 0 < total then pyRound2 ((newc : ℚ) / (total : ℚ) * 100) else 0
    returning_percentage :=
      if 0 < total then pyRound2 (((total - newc : ℕ) : ℚ) / (total : ℚ) * 100) else 0
    total_revenue := rev
    new_customer_revenue := nrev
    returning_customer_revenue := rev - nrev }

/-- Insert into an ascending list of day numbers (stable, equal keys keep
their order, like the pandas sort). -/
def insertAsc (x : ℤ) : List ℤ → List ℤ
  | [] => [x]
  | y :: l => if y ≤ x then y :: insertAsc x l else x :: y :: l

/-- Ascending sort of day numbers. -/
def sortAsc : List ℤ → List ℤ
  | [] => []
  | x :: l => insertAsc x (sortAsc l)

/-- The dates of one customer's rows in ascending order, as day numbers
(the effect of `sort_values(['phone', 'job_date'])` within one
`groupby('phone')` group; null dates sort last and never pair with a real
date, so only the non-null dates matter). -/
def customerDates (df : List Row) (p : Cell) : List ℤ :=
  sortAsc ((df.filter (fun r => decide (r.phone = p))).filterMap
    (fun r => r.job_date.map Date.toDayNumber))

/-- The day gaps between one customer's consecutive visits
(`groupby('phone')['job_date'].shift(-1)` minus `job_date`): consecutive
differences of the sorted dates; the last row of a group has no gap. -/
def customerGaps (df : List Row) (p : Cell) : List ℤ :=
  (customerDates df p).zipWith (fun a b => b - a) ((customerDates df p).drop 1)

/-- All day gaps of the frame: the non-null `days_between_visits` entries
(main.py line 112); `groupby` ignores null phone keys. -/
def allGaps (df : List Row) : List ℤ :=
  ((uniqueFA (df.map (fun r => r.phone))).filter
    (fun p => decide (p ≠ Cell.null))).flatMap (customerGaps df)

/-- `avg_days_between_visits` (main.py line 114): the mean of all gaps, or
the fallback `1` when every entry is null (no gap exists at all). -/
def avgDaysBetweenVisits (df : List Row) : ℚ :=
  if allGaps df = [] then 1
  else ((allGaps df).map (fun g => (g : ℚ))).sum / ((allGaps df).length : ℚ)

/-- The aggregated report returned by `monthly_breakdown`
(main.py lines 120-127). -/
structure Report where
  monthly_breakdown : List MonthRecord
  basic_ltv : ℚ
  advanced_ltv : ℚ
  avg_purchase_value : ℚ
  avg_purchase_frequency : ℚ
  avg_customer_lifespan_months : ℚ
deriving DecidableEq, Repr

/-- `monthly_breakdown` (main.py lines 62-127): month cohort records in the
order produced by `sorted(df['month'].unique())`, plus the LTV block, all
computed over the merged frame (see `mergedRows`). -/
def monthly_breakdown (df0 : List Row) : Report :=
  let df := mergedRows df0
  let months := pySort (uniqueFA (df.map rowMonth))
  let recs := months.map (mkMonthRecord df)
  let total_revenue := priceSum df
  let unique_customers := nunique (df.map (fun r => r.phone))
  let basic_ltv :=
    if 0 < unique_customers then total_revenue / (unique_customers : ℚ) else 0
  let avg_purchase_value :=
    if 0 < df.length then total_revenue / (df.length : ℚ) else 0
  let avg_purchase_frequency :=
    if 0 < unique_customers then (df.length : ℚ) / (unique_customers : ℚ) else 0
  let lifespan :=
    if 0 < avgDaysBetweenVisits df then 180 / avgDaysBetweenVisits df else 0
  { monthly_breakdown := recs
    basic_ltv := basic_ltv
    advanced_ltv := avg_purchase_value * avg_purchase_frequency * lifespan
    avg_purchase_value := avg_purchase_value
    avg_purchase_frequency := avg_purchase_frequency
    avg_customer_lifespan_months := lifespan }

/-- The persistence step of `update_data` (main.py lines 142-146): when a
stored report exists, prepend its monthly records to the new run's and keep
every LTV field of the new run. -/
def updateStoredReport (existing : Option Report) (newReport : Report) : Report :=
  match existing with
  | some old =>
    { newReport with
        monthly_breakdown := old.monthly_breakdown ++ newReport.monthly_breakdown }
  | none => newReport

/-- `update_data` (main.py lines 135-152) without the file I/O: clean the
upload, aggregate it, and merge with the previously stored report. -/
def update_data (existing : Option Report) (tables : List RawTable) :
    Except String Report :=
  match clean_and_merge_data tables with
  | Except.error e => Except.error e
  | Except.ok rows => Except.ok (updateStoredReport existing (monthly_breakdown rows))

/-- `pd.to_datetime(col, errors='coerce')` (main.py line 63) applied to an
already-normalised date-or-null column: value-preserving. -/
def to_datetime_coerce (d : Option Date) : Option Date := d

/-- The in-place effect `monthly_breakdown` has on the dataset object it is
given (main.py line 63 rewrites the `job_date` column through
`pd.to_datetime`; the derived `month` column added at line 64 is recomputed
from `job_date` on every run and carries no further information). -/
def aggregatorInputEffect (df : List Row) : List Row :=
  df.map (fun r => { r with job_date := to_datetime_coerce r.job_date })

/-- Adjacent-pair test that a label sequence is strictly increasing in
calendar order (every label a real month, each one chronologically before
the next). -/
def strictChrono : List (Option ℕ) → Bool
  | [] => true
  | [_] => true
  | a :: b :: l => monthLt a b && strictChrono (b :: l)

/-! ## Helper lemmas about the embedded pandas primitives -/

theorem uniqueFAAux_mem {α : Type} [DecidableEq α] (l : List α) :
    ∀ (seen : List α) (x : α), x ∈ uniqueFAAux seen l ↔ x ∈ l ∧ x ∉ seen := by
  induction l with
  | nil => intro seen x; simp [uniqueFAAux]
  | cons a l ih =>
    intro seen x
    by_cases ha : a ∈ seen
    · rw [uniqueFAAux, if_pos ha, ih]
      constructor
      · rintro ⟨hx, hns⟩; exact ⟨List.mem_cons_of_mem _ hx, hns⟩
      · rintro ⟨hx, hns⟩
        rcases List.mem_cons.mp hx with rfl | hx
        · exact absurd ha hns
        · exact ⟨hx, hns⟩
    · rw [uniqueFAAux, if_neg ha]
      constructor
      · intro hx
        rcases List.mem_cons.mp hx with rfl | hx
        · exact ⟨List.mem_cons_self _ _, ha⟩
        · rcases (ih _ _).mp hx with ⟨h1, h2⟩
          refine ⟨List.mem_cons_of_mem _ h1, fun hc => h2 (List.mem_cons_of_mem _ hc)⟩
      · rintro ⟨hx, hns⟩
        rcases List.mem_cons.mp hx with rfl | hx
        · exact List.mem_cons_self _ _
        · by_cases hxa : x = a
          · subst hxa; exact List.mem_cons_self _ _
          · exact List.mem_cons_of_mem _ ((ih _ _).mpr
              ⟨hx, by simp [List.mem_cons, hxa, hns]⟩)

theorem uniqueFAAux_nodup {α : Type} [DecidableEq α] (l : List α) :
    ∀ seen : List α, (uniqueFAAux seen l).Nodup := by
  induction l with
  | nil => intro seen; simp [uniqueFAAux]
  | cons a l ih =>
    intro seen
    by_cases ha : a ∈ seen
    · rw [uniqueFAAux, if_pos ha]; exact ih seen
    · rw [uniqueFAAux, if_neg ha]
      refine List.nodup_cons.mpr ⟨fun hc => ?_, ih _⟩
      rcases (uniqueFAAux_mem l _ a).mp hc with ⟨-, h2⟩
      exact h2 (List.mem_cons_self _ _)

theorem uniqueFA_mem {α : Type} [DecidableEq α] (l : List α) (x : α) :
    x ∈ uniqueFA l ↔ x ∈ l := by
  rw [uniqueFA, uniqueFAAux_mem]; simp

theorem uniqueFA_nodup {α : Type} [DecidableEq α] (l : List α) :
    (uniqueFA l).Nodup := uniqueFAAux_nodup l []

theorem pyInsert_perm (a : Option ℕ) (l : List (Option ℕ)) :
    List.Perm (pyInsert a l) (a :: l) := by
  induction l with
  | nil => simp [pyInsert]
  | cons b l ih =>
    rw [pyInsert]
    by_cases h : monthLt b a = true
    · rw [if_pos h]
      exact List.Perm.trans (List.Perm.cons b ih) (List.Perm.swap a b l)
    · rw [if_neg h]

theorem pySort_perm (l : List (Option ℕ)) : List.Perm (pySort l) l := by
  induction l with
  | nil => simp [pySort]
  | cons a l ih =>
    exact List.Perm.trans (pyInsert_perm a (pySort l)) (List.Perm.cons a ih)

theorem pySort_mem (l : List (Option ℕ)) (x : Option ℕ) :
    x ∈ pySort l ↔ x ∈ l := (pySort_perm l).mem_iff

theorem pySort_nodup (l : List (Option ℕ)) (h : l.Nodup) : (pySort l).Nodup :=
  ((pySort_perm l).nodup_iff).mpr h

theorem monthLt_asymm (a b : Option ℕ) (h : monthLt a b = true) :
    monthLt b a = false := by
  cases a with
  | none => cases h
  | some x =>
    cases b with
    | none => cases h
    | some y =>
      simp only [monthLt, decide_eq_true_eq] at h
      simp only [monthLt, decide_eq_false_iff_not]
      omega

theorem pyInsert_pairwise (a : Option ℕ) (l : List (Option ℕ))
    (hl : ∀ x ∈ l, x.isSome) (ha : a.isSome)
    (hp : l.Pairwise (fun x y => monthLt y x = false)) :
    (pyInsert a l).Pairwise (fun x y => monthLt y x = false) := by
  induction l with
  | nil => simp [pyInsert]
  | cons b l ih =>
    rw [List.pairwise_cons] at hp
    obtain ⟨hb, hp⟩ := hp
    rw [pyInsert]
    by_cases h : monthLt b a = true
    · rw [if_pos h]
      refine List.pairwise_cons.mpr ⟨?_, ih (fun x hx => hl x (List.mem_cons_of_mem _ hx)) hp⟩
      intro x hx
      rcases List.mem_cons.mp ((pyInsert_perm a l).mem_iff.mp hx) with rfl | hx
      · exact monthLt_asymm b x h
      · exact hb x hx
    · rw [if_neg h]
      refine List.pairwise_cons.mpr ⟨?_, List.pairwise_cons.mpr ⟨hb, hp⟩⟩
      intro x hx
      rcases List.mem_cons.mp hx with rfl | hx
      · exact Bool.eq_false_iff.mpr h
      · -- x is beyond b in the sorted tail: a ≤ b ≤ x on real months
        have hbx := hb x hx
        have hbs := hl b (List.mem_cons_self _ _)
        have hxs := hl x (List.mem_cons_of_mem _ hx)
        cases a with
        | none => cases ha
        | some av =>
          cases b with
          | none => cases hbs
          | some bv =>
            cases x with
            | none => cases hxs
            | some xv =>
              simp only [monthLt, decide_eq_true_eq, decide_eq_false_iff_not] at h hbx ⊢
              omega

theorem pySort_pairwise (l : List (Option ℕ)) (hl : ∀ x ∈ l, x.isSome) :
    (pySort l).Pairwise (fun x y => monthLt y x = false) := by
  induction l with
  | nil => simp [pySort]
  | cons a l ih =>
    rw [pySort]
    refine pyInsert_pairwise a (pySort l) ?_ (hl a (List.mem_cons_self _ _)) ?_
    · intro x hx
      exact hl x (List.mem_cons_of_mem _ ((pySort_perm l).mem_iff.mp hx))
    · exact ih (fun x hx => hl x (List.mem_cons_of_mem _ hx))

theorem pairwise_monthLt_of_sorted_nodup (l : List (Option ℕ))
    (hl : ∀ x ∈ l, x.isSome)
    (hs : l.Pairwise (fun x y => monthLt y x = false)) (hn : l.Nodup) :
    l.Pairwise (fun x y => monthLt x y = true) := by
  induction l with
  | nil => simp
  | cons a l ih =>
    rw [List.pairwise_cons] at hs ⊢
    rw [List.nodup_cons] at hn
    obtain ⟨hsa, hs⟩ := hs
    obtain ⟨hna, hn⟩ := hn
    refine ⟨?_, ih (fun x hx => hl x (List.mem_cons_of_mem _ hx)) hs hn⟩
    intro x hx
    have h1 := hsa x hx
    have has := hl a (List.mem_cons_self _ _)
    have hxs := hl x (List.mem_cons_of_mem _ hx)
    have hne : a ≠ x := fun hc => hna (hc ▸ hx)
    cases a with
    | none => cases has
    | some av =>
      cases x with
      | none => cases hxs
      | some xv =>
        simp only [monthLt, decide_eq_false_iff_not] at h1
        simp only [monthLt, decide_eq_true_eq]
        have : av ≠ xv := fun hc => hne (by rw [hc])
        omega

theorem strictChrono_of_pairwise (l : List (Option ℕ))
    (h : l.Pairwise (fun x y => monthLt x y = true)) : strictChrono l = true := by
  induction l with
  | nil => rfl
  | cons a l ih =>
    rw [List.pairwise_cons] at h
    obtain ⟨ha, h⟩ := h
    cases l with
    | nil => rfl
    | cons b l =>
      rw [strictChrono, Bool.and_eq_true]
      exact ⟨ha b (List.mem_cons_self _ _), ih h⟩

theorem floor_compl_of_fract_ne (x : ℚ) (h : x ≠ (⌊x⌋ : ℚ)) :
    ⌊(10000 : ℚ) - x⌋ = 9999 - ⌊x⌋ := by
  have h1 : (⌊x⌋ : ℚ) ≤ x := Int.floor_le x
  have h2 : x < ⌊x⌋ + 1 := Int.lt_floor_add_one x
  have h3 : (⌊x⌋ : ℚ) < x := lt_of_le_of_ne h1 (fun hc => h hc.symm)
  rw [Int.floor_eq_iff]
  constructor
  · push_cast; linarith
  · push_cast; linarith

theorem roundHalfEven_add_compl (x : ℚ) :
    roundHalfEven x + roundHalfEven ((10000 : ℚ) - x) = 10000 := by
  by_cases h : x = (⌊x⌋ : ℚ)
  · have hfl : ⌊(10000 : ℚ) - x⌋ = 10000 - ⌊x⌋ := by
      rw [h]
      rw [show (10000 : ℚ) - (⌊x⌋ : ℚ) = ((10000 - ⌊x⌋ : ℤ) : ℚ) by push_cast; ring]
      exact Int.floor_intCast _
    rw [roundHalfEven, roundHalfEven, hfl]
    rw [if_pos, if_pos]
    · omega
    · rw [show ((10000 - ⌊x⌋ : ℤ) : ℚ) = (10000 : ℚ) - (⌊x⌋ : ℚ) by push_cast; ring]
      rw [← h]; norm_num
    · rw [← h]; norm_num
  · have hfl : ⌊(10000 : ℚ) - x⌋ = 9999 - ⌊x⌋ := floor_compl_of_fract_ne x h
    have h1 : (⌊x⌋ : ℚ) ≤ x := Int.floor_le x
    have h2 : x < ⌊x⌋ + 1 := Int.lt_floor_add_one x
    have hkey : (10000 : ℚ) - x - ((9999 - ⌊x⌋ : ℤ) : ℚ) = 1 - (x - (⌊x⌋ : ℚ)) := by
      push_cast; ring
    rw [roundHalfEven, roundHalfEven, hfl, hkey]
    split_ifs <;> first | omega | (exfalso; linarith)

theorem pyRound2_add_compl (a : ℚ) : pyRound2 a + pyRound2 (100 - a) = 100 := by
  rw [pyRound2, pyRound2, div_add_div_same]
  rw [show (100 - a) * 100 = (10000 : ℚ) - a * 100 by ring]
  rw [show ((roundHalfEven (a * 100) : ℤ) : ℚ) + ((roundHalfEven ((10000 : ℚ) - a * 100) : ℤ) : ℚ)
      = ((roundHalfEven (a * 100) + roundHalfEven ((10000 : ℚ) - a * 100) : ℤ) : ℚ) by push_cast; ring]
  rw [roundHalfEven_add_compl (a * 100)]
  norm_num

theorem monthEq_none (a : Option ℕ) : monthEq a none = false := by
  cases a <;> rfl

theorem breakdown_records (df : List Row) :
    (monthly_breakdown df).monthly_breakdown
      = (pySort (uniqueFA ((mergedRows df).map rowMonth))).map
          (mkMonthRecord (mergedRows df)) := rfl

theorem mkMonthRecord_month (df : List Row) (m : Option ℕ) :
    (mkMonthRecord df m).month = m := rfl

theorem breakdown_month_labels (df : List Row) :
    (monthly_breakdown df).monthly_breakdown.map (fun rec => rec.month)
      = pySort (uniqueFA ((mergedRows df).map rowMonth)) := by
  rw [breakdown_records, List.map_map]
  exact List.map_id _

theorem mkMonthRecord_none (df : List Row) :
    mkMonthRecord df none =
      { month := none, total_customers := 0, new_customers := 0,
        returning_customers := 0, new_percentage := 0, returning_percentage := 0,
        total_revenue := 0, new_customer_revenue := 0,
        returning_customer_revenue := 0 } := by
  have hmd : df.filter (fun r => monthEq (rowMonth r) none) = [] := by
    rw [List.filter_eq_nil_iff]
    intro r hr
    simp [monthEq_none]
  simp only [mkMonthRecord]
  rw [hmd]
  simp [nunique, priceSum]

/-! ## Concrete datasets used by counterexamples and witnesses -/

/-- Two visits of one customer: January 5th 2021 for 10 and
February 10th 2021 for 20. -/
def exVisit1 : Row := ⟨Cell.str "c1", some 10, some ⟨2021, 1, 5⟩⟩

def exVisit2 : Row := ⟨Cell.str "c1", some 20, some ⟨2021, 2, 10⟩⟩

def exTwoVisits : List Row := [exVisit1, exVisit2]

/-- One January row plus one row whose date failed to parse. -/
def exNullRow : Row := ⟨Cell.str "b", some 2, none⟩

def exWithNull : List Row := [⟨Cell.str "a", some 1, some ⟨2021, 1, 5⟩⟩, exNullRow]

/-- A February row, a null-dated row, then a January row: the `NaT` month
entry blocks CPython's comparison sort, leaving February before January. -/
def exDisorder : List Row :=
  [⟨Cell.str "a", some 1, some ⟨2021, 2, 1⟩⟩, exNullRow,
   ⟨Cell.str "c", some 3, some ⟨2021, 1, 7⟩⟩]

/-! ## Claim C1: empty cleaned dataset -/

/-- C1 counterexample: the claim states every LTV field of the empty-dataset
report equals 0, but the code's gap-mean fallback `1` (main.py line 114)
fires on an empty frame too, so `Average Customer LifeSpan (Months)` is
`180 / 1 = 180`, not 0. -/
theorem C1_counterexample :
    ¬ (monthly_breakdown ([] : List Row)).avg_customer_lifespan_months = 0 := by
  show ¬ (monthly_breakdown ([] : List Row)).avg_customer_lifespan_months = 0
  simp only [monthly_breakdown, mergedRows, List.filter_nil, List.map_nil,
    avgDaysBetweenVisits, allGaps, uniqueFA, uniqueFAAux, List.flatMap_nil,
    List.length_nil, priceSum, nunique, List.toFinset_nil, Finset.card_empty]
  norm_num

/-- C1 (amended): on the empty cleaned dataset the aggregator returns (it is
a total function, so it cannot raise) an empty monthly breakdown, and
Basic LTV, Advanced LTV, Average Purchase Value and Average Purchase
Frequency are all 0 — but Average Customer LifeSpan (Months) is 180,
because the no-gap fallback `avg_days_between_visits = 1` also applies to
zero rows and `180 / 1 = 180`. -/
theorem C1_amended :
    monthly_breakdown ([] : List Row)
      = { monthly_breakdown := [], basic_ltv := 0, advanced_ltv := 0,
          avg_purchase_value := 0, avg_purchase_frequency := 0,
          avg_customer_lifespan_months := 180 } := by
  simp only [monthly_breakdown, mergedRows, List.filter_nil, List.map_nil,
    avgDaysBetweenVisits, allGaps, uniqueFA, uniqueFAAux, List.flatMap_nil,
    List.length_nil, priceSum, nunique, List.toFinset_nil, Finset.card_empty,
    pySort, Report.mk.injEq]
  norm_num

/-! ## Claim C3: one record per distinct month of the non-null dates -/

/-- C3 counterexample: a dataset with one January row and one null-dated row
has exactly one distinct month among its non-null dates, but the breakdown
holds two records — the second labelled `NaT` (`str(pd.NaT)`), because
`df['month'].unique()` includes `NaT` and the `NaT` group is still looped
over (it just matches no rows). -/
theorem C3_counterexample :
    (monthly_breakdown exWithNull).monthly_breakdown.length
        ≠ (uniqueFA (exWithNull.filterMap (fun r => r.job_date.map Date.monthIdx))).length
      ∧ (monthly_breakdown exWithNull).monthly_breakdown.map (fun rec => rec.month)
        = [some 24252, none] := by
  decide

/-- C3 (amended): null-dated rows are excluded from every real month's
statistics, and the breakdown has exactly one record per distinct month of
the non-null dates (no duplicates, none missing) — but when a null-dated
row is present the breakdown additionally carries exactly one extra record
labelled `NaT` whose counts, percentages and revenues are all 0. -/
theorem C3_amended (df : List Row) :
    ((monthly_breakdown df).monthly_breakdown.map (fun rec => rec.month)).Nodup
  ∧ (∀ m : ℕ,
      some m ∈ (monthly_breakdown df).monthly_breakdown.map (fun rec => rec.month)
        ↔ ∃ r ∈ mergedRows df, ∃ d, r.job_date = some d ∧ d.monthIdx = m)
  ∧ ((none : Option ℕ) ∈ (monthly_breakdown df).monthly_breakdown.map (fun rec => rec.month)
        ↔ ∃ r ∈ mergedRows df, r.job_date = none)
  ∧ (∀ rec ∈ (monthly_breakdown df).monthly_breakdown, rec.month = none →
        rec.total_customers = 0 ∧ rec.new_customers = 0
      ∧ rec.returning_customers = 0 ∧ rec.new_percentage = 0
      ∧ rec.returning_percentage = 0 ∧ rec.total_revenue = 0
      ∧ rec.new_customer_revenue = 0 ∧ rec.returning_customer_revenue = 0) := by
  refine ⟨?_, ?_, ?_, ?_⟩
  · rw [breakdown_month_labels]
    exact pySort_nodup _ (uniqueFA_nodup _)
  · intro m
    rw [breakdown_month_labels, pySort_mem, uniqueFA_mem, List.mem_map]
    constructor
    · rintro ⟨r, hr, hm⟩
      rcases Option.map_eq_some'.mp hm with ⟨d, hd, hdm⟩
      exact ⟨r, hr, d, hd, hdm⟩
    · rintro ⟨r, hr, d, hd, hdm⟩
      exact ⟨r, hr, by rw [rowMonth, hd]; simpa using hdm⟩
  · rw [breakdown_month_labels, pySort_mem, uniqueFA_mem, List.mem_map]
    constructor
    · rintro ⟨r, hr, hm⟩
      exact ⟨r, hr, Option.map_eq_none'.mp hm⟩
    · rintro ⟨r, hr, hd⟩
      exact ⟨r, hr, by rw [rowMonth, hd]; rfl⟩
  · intro rec hrec hnone
    rw [breakdown_records, List.mem_map] at hrec
    rcases hrec with ⟨m, hm, rfl⟩
    rw [mkMonthRecord_month] at hnone
    subst hnone
    rw [mkMonthRecord_none]
    exact ⟨rfl, rfl, rfl, rfl, rfl, rfl, rfl, rfl⟩

/-- C3 witness: the amended statement evaluated on the dataset of the
counterexample — the `NaT` record exists because of the null-dated row, and
all its statistics are 0. -/
theorem C3_witness :
    ((none : Option ℕ) ∈ (monthly_breakdown exWithNull).monthly_breakdown.map
        (fun rec => rec.month))
  ∧ (∀ rec ∈ (monthly_breakdown exWithNull).monthly_breakdown, rec.month = none →
        rec.total_customers = 0 ∧ rec.new_customers = 0
      ∧ rec.returning_customers = 0 ∧ rec.new_percentage = 0
      ∧ rec.returning_percentage = 0 ∧ rec.total_revenue = 0
      ∧ rec.new_customer_revenue = 0 ∧ rec.returning_customer_revenue = 0) :=
  ⟨((C3_amended exWithNull).2.2.1).mpr ⟨exNullRow, by decide, rfl⟩,
   (C3_amended exWithNull).2.2.2⟩

/-! ## Claim C7: chronological order of the monthly sequence -/

/-- C7 counterexample: with a February row, a null-dated row and a January
row (in that upload order), the month sequence is
`[2021-02, NaT, 2021-01]` — the `NaT` entry is incomparable under `<`, so
CPython's `sorted` treats the whole list as one non-descending run and
leaves even the two real months out of chronological order. -/
theorem C7_counterexample :
    strictChrono ((monthly_breakdown exDisorder).monthly_breakdown.map
        (fun rec => rec.month)) = false
  ∧ (monthly_breakdown exDisorder).monthly_breakdown.map (fun rec => rec.month)
      = [some 24253, none, some 24252] := by
  decide

/-- C7 (amended): when the cleaned dataset has no null `job_date`, the month
labels of the breakdown are strictly increasing in calendar order (hence no
duplicates), and months with no activity are simply absent; when null dates
are present an extra incomparable `NaT` label appears and the sequence need
not be chronologically ordered. -/
theorem C7_amended (df : List Row) (h : ∀ r ∈ df, r.job_date ≠ none) :
    strictChrono ((monthly_breakdown df).monthly_breakdown.map
      (fun rec => rec.month)) = true := by
  rw [breakdown_month_labels]
  have hsome : ∀ x ∈ uniqueFA ((mergedRows df).map rowMonth), x.isSome := by
    intro x hx
    rw [uniqueFA_mem, List.mem_map] at hx
    rcases hx with ⟨r, hr, rfl⟩
    have := h r (List.mem_of_mem_filter hr)
    rw [rowMonth]
    cases hd : r.job_date with
    | none => exact absurd hd this
    | some d => rfl
  apply strictChrono_of_pairwise
  apply pairwise_monthLt_of_sorted_nodup
  · intro x hx
    exact hsome x ((pySort_perm _).mem_iff.mp hx)
  · exact pySort_pairwise _ hsome
  · exact pySort_nodup _ (uniqueFA_nodup _)

/-- C7 witness: the amended statement on the two-visit dataset, whose dates
all parse. -/
theorem C7_witness :
    strictChrono ((monthly_breakdown exTwoVisits).monthly_breakdown.map
      (fun rec => rec.month)) = true :=
  C7_amended exTwoVisits (by decide)

/-! ## Claim C4: per-record invariants -/

theorem nunique_filter_le (l : List Row) (g : Row → Bool) :
    nunique ((l.filter g).map (fun r => r.phone))
      ≤ nunique (l.map (fun r => r.phone)) := by
  apply Finset.card_le_card
  intro x hx
  simp only [List.mem_toFinset, List.mem_filter, List.mem_map] at hx ⊢
  rcases hx with ⟨⟨r, hr, rfl⟩, hphi⟩
  exact ⟨⟨r, hr.1, rfl⟩, hphi⟩

theorem mkMonthRecord_new_le_total (df : List Row) (m : Option ℕ) :
    (mkMonthRecord df m).new_customers ≤ (mkMonthRecord df m).total_customers := by
  simp only [mkMonthRecord]
  exact nunique_filter_le _ _

/-- C4: in every record of the produced monthly breakdown, new plus
returning customers equals total customers, new plus returning revenue
equals total revenue (exactly, in the rational embedding of the float
arithmetic), the two rounded percentages add to exactly 100 when the month
has customers, and both percentages are 0 when it has none. -/
theorem C4_invariants (df : List Row) (rec : MonthRecord)
    (h : rec ∈ (monthly_breakdown df).monthly_breakdown) :
    rec.new_customers + rec.returning_customers = rec.total_customers
  ∧ rec.new_customer_revenue + rec.returning_customer_revenue = rec.total_revenue
  ∧ (0 < rec.total_customers → rec.new_percentage + rec.returning_percentage = 100)
  ∧ (rec.total_customers = 0 → rec.new_percentage = 0 ∧ rec.returning_percentage = 0) := by
  rw [breakdown_records, List.mem_map] at h
  rcases h with ⟨m, hm, rfl⟩
  have hle := mkMonthRecord_new_le_total (mergedRows df) m
  refine ⟨?_, ?_, ?_, ?_⟩
  · simp only [mkMonthRecord] at hle ⊢
    omega
  · simp only [mkMonthRecord]
    ring
  · intro ht
    simp only [mkMonthRecord] at hle ht ⊢
    rw [if_pos ht, if_pos ht]
    set total := nunique (((mergedRows df).filter
      (fun r => monthEq (rowMonth r) m)).map (fun r => r.phone)) with htot
    set newc := nunique ((((mergedRows df).filter
      (fun r => monthEq (rowMonth r) m)).filter
        (fun r => monthEq (rowMonth r) (firstVisitMonth (mergedRows df) r.phone))).map
        (fun r => r.phone)) with hnewc
    have htne : (total : ℚ) ≠ 0 := by
      exact_mod_cast Nat.pos_iff_ne_zero.mp ht
    have hcast : ((total - newc : ℕ) : ℚ) = (total : ℚ) - (newc : ℚ) :=
      Nat.cast_sub hle
    rw [hcast]
    have hcompl : ((total : ℚ) - (newc : ℚ)) / (total : ℚ) * 100
        = 100 - (newc : ℚ) / (total : ℚ) * 100 := by
      field_simp
      ring
    rw [hcompl]
    exact pyRound2_add_compl _
  · intro ht
    simp only [mkMonthRecord] at ht ⊢
    rw [if_neg (by omega), if_neg (by omega)]
    exact ⟨rfl, rfl⟩

/-- C4 witness: the invariants evaluated on the first record of the
two-visit dataset. -/
theorem C4_witness :
    (mkMonthRecord (mergedRows exTwoVisits) (some 24252)).new_customers
        + (mkMonthRecord (mergedRows exTwoVisits) (some 24252)).returning_customers
        = (mkMonthRecord (mergedRows exTwoVisits) (some 24252)).total_customers
  ∧ (mkMonthRecord (mergedRows exTwoVisits) (some 24252)).new_customer_revenue
        + (mkMonthRecord (mergedRows exTwoVisits) (some 24252)).returning_customer_revenue
        = (mkMonthRecord (mergedRows exTwoVisits) (some 24252)).total_revenue
  ∧ (0 < (mkMonthRecord (mergedRows exTwoVisits) (some 24252)).total_customers →
        (mkMonthRecord (mergedRows exTwoVisits) (some 24252)).new_percentage
          + (mkMonthRecord (mergedRows exTwoVisits) (some 24252)).returning_percentage = 100)
  ∧ ((mkMonthRecord (mergedRows exTwoVisits) (some 24252)).total_customers = 0 →
        (mkMonthRecord (mergedRows exTwoVisits) (some 24252)).new_percentage = 0
      ∧ (mkMonthRecord (mergedRows exTwoVisits) (some 24252)).returning_percentage = 0) :=
  C4_invariants exTwoVisits (mkMonthRecord (mergedRows exTwoVisits) (some 24252))
    (by rw [breakdown_records]; exact List.mem_map_of_mem _ (by decide))

/-! ## Claim C8: visit gaps, fallback and customer lifespan -/

/-- C8: `avg_days_between_visits` is the mean of the per-customer day gaps
(consecutive differences of each customer's dates sorted ascending, the
last row of a customer contributing no gap — see `customerGaps`), with
fallback 1 when no gap exists at all; the lifespan is
`180 / avg_days_between_visits` guarded to 0 when the average is not
positive; and a single-row dataset therefore reports a lifespan of 180. -/
theorem C8_lifespan (df : List Row) :
    (monthly_breakdown df).avg_customer_lifespan_months
        = (if 0 < avgDaysBetweenVisits (mergedRows df)
            then 180 / avgDaysBetweenVisits (mergedRows df) else 0)
  ∧ (allGaps (mergedRows df) = [] → avgDaysBetweenVisits (mergedRows df) = 1)
  ∧ (allGaps (mergedRows df) ≠ [] →
        avgDaysBetweenVisits (mergedRows df)
          = ((allGaps (mergedRows df)).map (fun g => (g : ℚ))).sum
              / ((allGaps (mergedRows df)).length : ℚ))
  ∧ (∀ r : Row, (monthly_breakdown [r]).avg_customer_lifespan_months = 180) := by
  refine ⟨rfl, ?_, ?_, ?_⟩
  · intro hg
    rw [avgDaysBetweenVisits, if_pos hg]
  · intro hg
    rw [avgDaysBetweenVisits, if_neg hg]
  · intro r
    have hgaps : allGaps (mergedRows [r]) = [] := by
      by_cases hp : r.phone = Cell.null
      · have hmr : mergedRows [r] = [] := by
          simp [mergedRows, hp]
        rw [hmr]
        rfl
      · have hmr : mergedRows [r] = [r] := by
          simp [mergedRows, hp]
        rw [hmr]
        simp only [allGaps, customerGaps, customerDates, uniqueFA, uniqueFAAux,
          List.map_cons, List.map_nil, List.filter_cons, List.filter_nil]
        cases hd : r.job_date with
        | none => simp [customerGaps, customerDates, hp, hd, sortAsc]
        | some d => simp [customerGaps, customerDates, hp, hd, sortAsc, insertAsc]
    have havg : avgDaysBetweenVisits (mergedRows [r]) = 1 := by
      rw [avgDaysBetweenVisits, if_pos hgaps]
    show (if 0 < avgDaysBetweenVisits (mergedRows [r])
        then 180 / avgDaysBetweenVisits (mergedRows [r]) else 0) = 180
    rw [havg]
    norm_num

/-- C8 witness: the two-visit dataset has the single gap list `[36]`
(2021-01-05 to 2021-02-10), so its average is `36 / 1`; and the single-row
dataset reports a lifespan of 180. -/
theorem C8_witness :
    (allGaps (mergedRows exTwoVisits) ≠ []
      ∧ avgDaysBetweenVisits (mergedRows exTwoVisits)
          = ((allGaps (mergedRows exTwoVisits)).map (fun g => (g : ℚ))).sum
              / ((allGaps (mergedRows exTwoVisits)).length : ℚ))
  ∧ (monthly_breakdown [exVisit1]).avg_customer_lifespan_months = 180 :=
  ⟨⟨by decide, (C8_lifespan exTwoVisits).2.2.1 (by decide)⟩,
   (C8_lifespan exTwoVisits).2.2.2 exVisit1⟩

/-! ## Claim C9: determinism / idempotence of the aggregator -/

/-- C9: the aggregator is a pure function of the cleaned dataset, and the
only in-place effect it has on the frame it is handed — rewriting the
`job_date` column through `pd.to_datetime(..., errors='coerce')` at line 63
(value-preserving on the already-normalised dates) and recomputing the
derived `month` column — does not change the dataset it reads, so a second
run on the same (now mutated) dataset returns a bit-identical report. -/
theorem C9_idempotent (df : List Row) :
    monthly_breakdown (aggregatorInputEffect df) = monthly_breakdown df := by
  have h : aggregatorInputEffect df = df := by
    unfold aggregatorInputEffect to_datetime_coerce
    exact List.map_id _
  rw [h]

/-- Reduction of `clean_and_merge_data` when the three required columns are
present. -/
theorem clean_eq_ok (tables : List RawTable)
    (h : "PHONE NO" ∈ tables.flatMap (fun t => t.cols)
      ∧ "DRIVER PRICE" ∈ tables.flatMap (fun t => t.cols)
      ∧ "JOB DATE" ∈ tables.flatMap (fun t => t.cols)) :
    clean_and_merge_data tables
      = Except.ok ((((tables.flatMap (fun t => t.rows)).map renameRow).filter
          keepRow).map parseRowDate) := by
  simp only [clean_and_merge_data]
  rw [if_pos h]

/-! ## Claim C5: required source columns -/

/-- C5: if any of the three source columns `PHONE NO`, `DRIVER PRICE`,
`JOB DATE` is absent from the concatenated table, ingestion fails for the
whole event with an error and produces no cleaned dataset (the `Except` is
an error, carrying no rows); when all three are present they are selected
and renamed to `phone`, `price`, `job_date` and cleaning proceeds. -/
theorem C5_schema (tables : List RawTable) :
    ((("PHONE NO" ∉ tables.flatMap (fun t => t.cols))
        ∨ ("DRIVER PRICE" ∉ tables.flatMap (fun t => t.cols))
        ∨ ("JOB DATE" ∉ tables.flatMap (fun t => t.cols))) →
      clean_and_merge_data tables = Except.error "KeyError: missing required column")
  ∧ (("PHONE NO" ∈ tables.flatMap (fun t => t.cols)
        ∧ "DRIVER PRICE" ∈ tables.flatMap (fun t => t.cols)
        ∧ "JOB DATE" ∈ tables.flatMap (fun t => t.cols)) →
      clean_and_merge_data tables
        = Except.ok ((((tables.flatMap (fun t => t.rows)).map renameRow).filter
            keepRow).map parseRowDate)) := by
  constructor
  · intro h
    simp only [clean_and_merge_data]
    rw [if_neg (by tauto)]
  · intro h
    exact clean_eq_ok tables h

/-- A table lacking the `JOB DATE` column. -/
def exBadTable : RawTable :=
  { cols := ["PHONE NO", "DRIVER PRICE"]
    rows := [[("PHONE NO", Cell.str "c1"), ("DRIVER PRICE", Cell.num 10)]] }

/-- A well-formed one-row table. -/
def exTable : RawTable :=
  { cols := ["PHONE NO", "DRIVER PRICE", "JOB DATE"]
    rows := [[("PHONE NO", Cell.str "c1"), ("DRIVER PRICE", Cell.num 10),
              ("JOB DATE", Cell.str "05/01/21 10:00:00")]] }

/-- C5 witness: the error branch on a table without `JOB DATE`, and the
renaming branch on a well-formed table. -/
theorem C5_witness :
    clean_and_merge_data [exBadTable] = Except.error "KeyError: missing required column"
  ∧ clean_and_merge_data [exTable]
      = Except.ok (((([exTable].flatMap (fun t => t.rows)).map renameRow).filter
          keepRow).map parseRowDate) :=
  ⟨(C5_schema [exBadTable]).1 (by decide), (C5_schema [exTable]).2 (by decide)⟩

/-! ## Claim C6: row filtering and date coercion -/

/-- C6: when the required columns are present, the cleaned dataset is
exactly the concatenated rows whose phone is non-null and not the empty
string, in the original concatenation order, each passed through the date
parse; every surviving row has a non-empty phone; and a kept row whose
`job_date` string does not parse in the `%d/%m/%y %H:%M:%S` format stays in
the dataset with a null date. -/
theorem C6_cleaning (tables : List RawTable)
    (h : "PHONE NO" ∈ tables.flatMap (fun t => t.cols)
      ∧ "DRIVER PRICE" ∈ tables.flatMap (fun t => t.cols)
      ∧ "JOB DATE" ∈ tables.flatMap (fun t => t.cols)) :
    clean_and_merge_data tables
        = Except.ok ((((tables.flatMap (fun t => t.rows)).map renameRow).filter
            keepRow).map parseRowDate)
  ∧ (∀ r ∈ (((tables.flatMap (fun t => t.rows)).map renameRow).filter
        keepRow).map parseRowDate, r.phone ≠ Cell.null ∧ r.phone ≠ Cell.str "")
  ∧ (∀ rr ∈ (tables.flatMap (fun t => t.rows)).map renameRow, keepRow rr = true →
        parseRowDate rr ∈ (((tables.flatMap (fun t => t.rows)).map renameRow).filter
            keepRow).map parseRowDate
      ∧ (∀ s, rr.job_date = Cell.str s → parseJobDate s = none →
            (parseRowDate rr).job_date = none)) := by
  refine ⟨?_, ?_, ?_⟩
  · exact clean_eq_ok tables h
  · intro r hr
    rw [List.mem_map] at hr
    rcases hr with ⟨rr, hrr, rfl⟩
    have hk := (List.mem_filter.mp hrr).2
    rw [keepRow, Bool.and_eq_true, decide_eq_true_eq, decide_eq_true_eq] at hk
    exact hk
  · intro rr hrr hkeep
    constructor
    · exact List.mem_map_of_mem _ (List.mem_filter.mpr ⟨hrr, hkeep⟩)
    · intro s hs hparse
      simp [parseRowDate, hs, hparse]

/-- A table with a good row, a row with an empty phone (to be dropped), a
row whose date string is the invalid 31st of February (kept, date null), a
row with a one-digit year (no `%y` match, kept with a null date) and a row
whose date has two spaces before the time (matched by the format's
whitespace, kept with a parsed date). -/
def exMixedTable : RawTable :=
  { cols := ["PHONE NO", "DRIVER PRICE", "JOB DATE"]
    rows := [
      [("PHONE NO", Cell.str "c1"), ("DRIVER PRICE", Cell.num 10),
       ("JOB DATE", Cell.str "05/01/21 10:00:00")],
      [("PHONE NO", Cell.str ""), ("DRIVER PRICE", Cell.num 7),
       ("JOB DATE", Cell.str "06/01/21 10:00:00")],
      [("PHONE NO", Cell.str "c2"), ("DRIVER PRICE", Cell.num 3),
       ("JOB DATE", Cell.str "31/02/21 09:00:00")],
      [("PHONE NO", Cell.str "c3"), ("DRIVER PRICE", Cell.num 4),
       ("JOB DATE", Cell.str "05/01/9 10:00:00")],
      [("PHONE NO", Cell.str "c4"), ("DRIVER PRICE", Cell.num 5),
       ("JOB DATE", Cell.str "05/01/21  10:00:00")]] }

/-- The third raw row of `exMixedTable` (invalid date). -/
def exBadDateRawRow : List (String × Cell) :=
  [("PHONE NO", Cell.str "c2"), ("DRIVER PRICE", Cell.num 3),
   ("JOB DATE", Cell.str "31/02/21 09:00:00")]

/-- C6 witness: cleaning the mixed table drops only the empty-phone row,
keeps the rows with an unparseable date (invalid calendar day, one-digit
year) with a null date, and parses the double-spaced date. -/
theorem C6_witness :
    clean_and_merge_data [exMixedTable]
        = Except.ok [⟨Cell.str "c1", some 10, some ⟨2021, 1, 5⟩⟩,
                     ⟨Cell.str "c2", some 3, none⟩,
                     ⟨Cell.str "c3", some 4, none⟩,
                     ⟨Cell.str "c4", some 5, some ⟨2021, 1, 5⟩⟩]
  ∧ (parseRowDate (renameRow exBadDateRawRow)).job_date = none
  ∧ parseRowDate (renameRow exBadDateRawRow)
      ∈ ((([exMixedTable].flatMap (fun t => t.rows)).map renameRow).filter
          keepRow).map parseRowDate := by
  have h := C6_cleaning [exMixedTable] (by decide)
  have h3 := h.2.2 (renameRow exBadDateRawRow) (by decide) (by decide)
  exact ⟨h.1.trans (congrArg Except.ok (by decide)),
    h3.2 "31/02/21 09:00:00" (by decide) (by decide), h3.1⟩

/-! ## Claim C10: append-on-upload persistence -/

/-- C10: when a stored report exists, the report produced by a new upload
keeps the stored monthly records followed by the new run's records — with
no deduplication, so per-month record counts add up and a month present in
both runs yields two entries — while every LTV field is the new run's
value, computed from the new upload alone. -/
theorem C10_append (old : Report) (tables : List RawTable) (rows : List Row)
    (h : clean_and_merge_data tables = Except.ok rows) :
    update_data (some old) tables
        = Except.ok
            { monthly_breakdown :=
                old.monthly_breakdown ++ (monthly_breakdown rows).monthly_breakdown
              basic_ltv := (monthly_breakdown rows).basic_ltv
              advanced_ltv := (monthly_breakdown rows).advanced_ltv
              avg_purchase_value := (monthly_breakdown rows).avg_purchase_value
              avg_purchase_frequency := (monthly_breakdown rows).avg_purchase_frequency
              avg_customer_lifespan_months :=
                (monthly_breakdown rows).avg_customer_lifespan_months }
  ∧ (∀ m : Option ℕ,
      (old.monthly_breakdown ++ (monthly_breakdown rows).monthly_breakdown).countP
          (fun rec => decide (rec.month = m))
        = old.monthly_breakdown.countP (fun rec => decide (rec.month = m))
          + (monthly_breakdown rows).monthly_breakdown.countP
              (fun rec => decide (rec.month = m))) := by
  constructor
  · rw [update_data, h]
    rfl
  · intro m
    exact List.countP_append _ _ _

/-- A previously stored report with one January record. -/
def exOldReport : Report :=
  { monthly_breakdown :=
      [{ month := some 24252, total_customers := 1, new_customers := 1,
         returning_customers := 0, new_percentage := 100, returning_percentage := 0,
         total_revenue := 10, new_customer_revenue := 10,
         returning_customer_revenue := 0 }]
    basic_ltv := 10, advanced_ltv := 1800, avg_purchase_value := 10,
    avg_purchase_frequency := 1, avg_customer_lifespan_months := 180 }

/-- The cleaned rows of `exTable`. -/
def exTableRows : List Row := [⟨Cell.str "c1", some 10, some ⟨2021, 1, 5⟩⟩]

/-- C10 witness: uploading `exTable` on top of the stored report appends the
new January record after the stored one and replaces the LTV fields. -/
theorem C10_witness :
    update_data (some exOldReport) [exTable]
        = Except.ok
            { monthly_breakdown :=
                exOldReport.monthly_breakdown
                  ++ (monthly_breakdown exTableRows).monthly_breakdown
              basic_ltv := (monthly_breakdown exTableRows).basic_ltv
              advanced_ltv := (monthly_breakdown exTableRows).advanced_ltv
              avg_purchase_value := (monthly_breakdown exTableRows).avg_purchase_value
              avg_purchase_frequency := (monthly_breakdown exTableRows).avg_purchase_frequency
              avg_customer_lifespan_months :=
                (monthly_breakdown exTableRows).avg_customer_lifespan_months }
  ∧ (exOldReport.monthly_breakdown
        ++ (monthly_breakdown exTableRows).monthly_breakdown).countP
          (fun rec => decide (rec.month = some 24252))
      = exOldReport.monthly_breakdown.countP (fun rec => decide (rec.month = some 24252))
        + (monthly_breakdown exTableRows).monthly_breakdown.countP
            (fun rec => decide (rec.month = some 24252)) :=
  ⟨(C10_append exOldReport [exTable] exTableRows
      ((clean_eq_ok [exTable] (by decide)).trans (congrArg Except.ok (by decide)))).1,
   (C10_append exOldReport [exTable] exTableRows
      ((clean_eq_ok [exTable] (by decide)).trans (congrArg Except.ok (by decide)))).2
      (some 24252)⟩

/-! ## Claim C2: one customer, two months -/

theorem pyRound2_intCast (n : ℤ) : pyRound2 ((n : ℤ) : ℚ) = (n : ℚ) := by
  rw [pyRound2, roundHalfEven]
  have h1 : ((n : ℚ) * 100) = ((n * 100 : ℤ) : ℚ) := by push_cast; ring
  rw [h1, Int.floor_intCast]
  rw [if_pos (by norm_num)]
  have h100 : (100 : ℚ) ≠ 0 := by norm_num
  field_simp

/-- C2 counterexample: on the one-customer dataset with two rows priced 10
and 20, Basic LTV is `total_revenue / unique_customers = 30 / 1 = 30`, not
15 (15 is the Average Purchase Value, `30 / 2` rows). -/
theorem C2_counterexample :
    ¬ (monthly_breakdown exTwoVisits).basic_ltv = 15 := by
  show ¬ (if 0 < nunique ((mergedRows exTwoVisits).map (fun r => r.phone))
      then priceSum (mergedRows exTwoVisits)
        / ((nunique ((mergedRows exTwoVisits).map (fun r => r.phone)) : ℕ) : ℚ)
      else 0) = 15
  rw [(by decide : mergedRows exTwoVisits = exTwoVisits)]
  rw [(by decide : nunique (exTwoVisits.map (fun r => r.phone)) = 1)]
  rw [if_pos (by norm_num)]
  have hps : priceSum exTwoVisits = 30 := by
    norm_num [priceSum, exTwoVisits, exVisit1, exVisit2]
  rw [hps]
  norm_num

theorem pyRound2_eq_int (q : ℚ) (n : ℤ) (h : q = (n : ℚ)) : pyRound2 q = (n : ℚ) := by
  rw [h]
  exact pyRound2_intCast n

/-- C2 (amended): for one customer with a row priced 10 in month M1 and a
row priced 20 in a later month M2, the breakdown reports for M1
total=1, new=1, returning=0, new%=100 and for M2 total=1, new=0,
returning=1, returning%=100 — but Basic LTV is 30 (total revenue 30 over 1
unique customer); the value 15 of the original claim is the Average
Purchase Value (30 over 2 rows). -/
theorem C2_amended (p : Cell) (d1 d2 : Date)
    (hp : p ≠ Cell.null)
    (hm : d1.monthIdx < d2.monthIdx)
    (hd : d1.toDayNumber < d2.toDayNumber) :
    (monthly_breakdown [⟨p, some 10, some d1⟩, ⟨p, some 20, some d2⟩]).monthly_breakdown
        = [{ month := some d1.monthIdx, total_customers := 1, new_customers := 1,
             returning_customers := 0, new_percentage := 100, returning_percentage := 0,
             total_revenue := 10, new_customer_revenue := 10,
             returning_customer_revenue := 0 },
           { month := some d2.monthIdx, total_customers := 1, new_customers := 0,
             returning_customers := 1, new_percentage := 0, returning_percentage := 100,
             total_revenue := 20, new_customer_revenue := 0,
             returning_customer_revenue := 20 }]
  ∧ (monthly_breakdown [⟨p, some 10, some d1⟩, ⟨p, some 20, some d2⟩]).basic_ltv = 30
  ∧ (monthly_breakdown [⟨p, some 10, some d1⟩,
        ⟨p, some 20, some d2⟩]).avg_purchase_value = 15 := by
  have hne : d2.monthIdx ≠ d1.monthIdx := by omega
  have hne' : d1.monthIdx ≠ d2.monthIdx := by omega
  have hlt2 : ¬ (d2.monthIdx < d1.monthIdx) := by omega
  have hday : ¬ (d2.toDayNumber < d1.toDayNumber) := by omega
  set R : List Row := [⟨p, some 10, some d1⟩, ⟨p, some 20, some d2⟩] with hR
  have hmr : mergedRows R = R := by
    simp [mergedRows, hR, hp]
  have hmonths : pySort (uniqueFA (R.map rowMonth))
      = [some d1.monthIdx, some d2.monthIdx] := by
    simp [hR, rowMonth, uniqueFA, uniqueFAAux, pySort, pyInsert, monthLt, hne, hlt2]
  have hfvm : firstVisitMonth R p = some d1.monthIdx := by
    simp [hR, firstVisitMonth, firstVisitDate, hday]
  have hnu1 : nunique [p] = 1 := by
    simp [nunique, hp]
  have hrec1 : mkMonthRecord R (some d1.monthIdx)
      = { month := some d1.monthIdx, total_customers := 1, new_customers := 1,
          returning_customers := 0, new_percentage := 100, returning_percentage := 0,
          total_revenue := 10, new_customer_revenue := 10,
          returning_customer_revenue := 0 } := by
    have hmd : R.filter (fun r => monthEq (rowMonth r) (some d1.monthIdx))
        = [⟨p, some 10, some d1⟩] := by
      simp [hR, monthEq, rowMonth, hne]
    have hnewr : ([⟨p, some 10, some d1⟩] : List Row).filter
        (fun r => monthEq (rowMonth r) (firstVisitMonth R r.phone))
        = [⟨p, some 10, some d1⟩] := by
      simp [hfvm, monthEq, rowMonth]
    simp only [mkMonthRecord, hmd, hnewr]
    simp only [MonthRecord.mk.injEq, List.map_cons, List.map_nil]
    refine ⟨trivial, ?_, ?_, ?_, ?_, ?_, ?_, ?_, ?_⟩
    · exact hnu1
    · exact hnu1
    · rw [hnu1]
    · rw [hnu1, if_pos (by norm_num)]
      rw [pyRound2_eq_int _ 100 (by push_cast; norm_num)]
      norm_num
    · rw [hnu1, if_pos (by norm_num)]
      rw [pyRound2_eq_int _ 0 (by push_cast; norm_num)]
      norm_num
    · norm_num [priceSum]
    · norm_num [priceSum]
    · norm_num [priceSum]
  have hrec2 : mkMonthRecord R (some d2.monthIdx)
      = { month := some d2.monthIdx, total_customers := 1, new_customers := 0,
          returning_customers := 1, new_percentage := 0, returning_percentage := 100,
          total_revenue := 20, new_customer_revenue := 0,
          returning_customer_revenue := 20 } := by
    have hmd : R.filter (fun r => monthEq (rowMonth r) (some d2.monthIdx))
        = [⟨p, some 20, some d2⟩] := by
      simp [hR, monthEq, rowMonth, hne']
    have hnewr : ([⟨p, some 20, some d2⟩] : List Row).filter
        (fun r => monthEq (rowMonth r) (firstVisitMonth R r.phone))
        = [] := by
      simp [hfvm, monthEq, rowMonth, hne]
    simp only [mkMonthRecord, hmd, hnewr]
    simp only [MonthRecord.mk.injEq, List.map_cons, List.map_nil]
    refine ⟨trivial, ?_, ?_, ?_, ?_, ?_, ?_, ?_, ?_⟩
    · exact hnu1
    · simp [nunique]
    · rw [hnu1]
      simp [nunique]
    · rw [hnu1, if_pos (by norm_num)]
      simp only [nunique, List.map_nil, List.filter_nil, List.toFinset_nil,
        Finset.card_empty]
      rw [pyRound2_eq_int _ 0 (by push_cast; norm_num)]
      norm_num
    · rw [hnu1, if_pos (by norm_num)]
      simp only [nunique, List.map_nil, List.filter_nil, List.toFinset_nil,
        Finset.card_empty]
      rw [pyRound2_eq_int _ 100 (by push_cast; norm_num)]
      norm_num
    · norm_num [priceSum]
    · norm_num [priceSum]
    · norm_num [priceSum]
  refine ⟨?_, ?_, ?_⟩
  · rw [breakdown_records, hmr, hmonths]
    simp only [List.map_cons, List.map_nil]
    rw [hrec1, hrec2]
  · show (if 0 < nunique ((mergedRows R).map (fun r => r.phone))
        then priceSum (mergedRows R)
          / ((nunique ((mergedRows R).map (fun r => r.phone)) : ℕ) : ℚ)
        else 0) = 30
    rw [hmr]
    have hnu : nunique (R.map (fun r => r.phone)) = 1 := by
      simp [hR, nunique, hp]
    rw [hnu, if_pos (by norm_num)]
    have hps : priceSum R = 30 := by
      norm_num [hR, priceSum]
    rw [hps]
    norm_num
  · show (if 0 < (mergedRows R).length
        then priceSum (mergedRows R) / (((mergedRows R).length : ℕ) : ℚ)
        else 0) = 15
    rw [hmr]
    have hps : priceSum R = 30 := by
      norm_num [hR, priceSum]
    rw [if_pos (by simp [hR]), hps]
    simp [hR]
    norm_num

/-- C2 witness: the amended statement at the concrete months January and
February 2021 (absolute month numbers 24252 and 24253). -/
theorem C2_witness :
    (monthly_breakdown exTwoVisits).monthly_breakdown
        = [{ month := some 24252, total_customers := 1, new_customers := 1,
             returning_customers := 0, new_percentage := 100, returning_percentage := 0,
             total_revenue := 10, new_customer_revenue := 10,
             returning_customer_revenue := 0 },
           { month := some 24253, total_customers := 1, new_customers := 0,
             returning_customers := 1, new_percentage := 0, returning_percentage := 100,
             total_revenue := 20, new_customer_revenue := 0,
             returning_customer_revenue := 20 }]
  ∧ (monthly_breakdown exTwoVisits).basic_ltv = 30
  ∧ (monthly_breakdown exTwoVisits).avg_purchase_value = 15 :=
  C2_amended (Cell.str "c1") ⟨2021, 1, 5⟩ ⟨2021, 2, 10⟩ (by decide) (by decide) (by decide)
